import Mathlib

/-!
Shallow embedding of the Volatility-Adjusted Risk Suite.

Sources embedded:
  * `src/risk_engine.py`  — `RiskEngine.calculate_volatility`,
    `RiskEngine.calculate_dynamic_floor`, `RiskEngine.compute_safe_prices`,
    `RiskEngine.get_annual_days`.
  * `main.py`             — the per-asset orchestration (effective volatility,
    floor-active flag, cycle high, drawdown, all-time-high lookup with the
    `loc`/`asof` fallback, survival check, and the skip-on-undefined-volatility
    control flow).

Modelling conventions:
  * Python floats are modelled as exact numbers in a linear ordered field
    (`ℚ` for configuration values and prices; `ℝ` where the code applies the
    transcendental `np.log` / `np.sqrt`).
  * The pandas `NaN` sentinel is modelled as an explicit `Option`: an entry
    that the code leaves as `NaN` is `none`.  This follows the source's own
    reading of `NaN` as "undefined", enforced by every downstream guard
    (`pd.isna` checks in `compute_safe_prices` and the survival check).
  * Dates are modelled as naturals (the pandas `DatetimeIndex` is an ordered
    index; only its order and equality are used by the code).
-/

namespace RiskSuite

section Engine

variable {α : Type*} [LinearOrderedField α]

/-- Python `int()` applied to a float: truncation toward zero.  Used by
`calculate_dynamic_floor` for `window_size = int(years * annual_days)`. -/
def intTrunc (q : ℚ) : ℤ := if 0 ≤ q then ⌊q⌋ else ⌈q⌉

/-- Rounding to the nearest integer, `round(q)`.  This is the window-size
formula the specification states for the Dynamic Floor Calculator (the code
itself truncates; see `intTrunc`).  Ties are not exercised by any claim. -/
def roundNearest (q : ℚ) : ℤ := ⌊q + 1 / 2⌋

/-- Pandas `Series.tail(n)`: the last `n` entries for `n ≥ 0`, and everything
after the first `|n|` entries for negative `n`. -/
def pyTail {β : Type*} (l : List β) (n : ℤ) : List β :=
  if 0 ≤ n then l.drop (l.length - n.toNat) else l.drop (-n).toNat

/-- Pandas `Series.quantile(q)` with the default linear interpolation, applied
to the already `NaN`-filtered data: sort, set `h = q * (n - 1)`, and linearly
interpolate between the values at ranks `⌊h⌋` and `⌊h⌋ + 1` (indices clamped
to the last rank).  An empty list gives `NaN` (`none`). -/
def quantile [DecidableRel ((· ≤ ·) : α → α → Prop)] (xs : List α) (q : ℚ) :
    Option α :=
  if xs.isEmpty then none
  else
    let s := xs.insertionSort (· ≤ ·)
    let n := s.length
    let h : ℚ := q * ((n : ℚ) - 1)
    let i : ℕ := ⌊h⌋.toNat
    let frac : ℚ := h - (⌊h⌋ : ℚ)
    let lo := s.getD (min i (n - 1)) 0
    let hi := s.getD (min (i + 1) (n - 1)) 0
    some (lo + (frac : α) * (hi - lo))

/-- Embedding of `RiskEngine.calculate_dynamic_floor` (src/risk_engine.py:44-56):
`window_size = int(years * annual_days)`; if `len(rolling_vol) < window_size`
return the fallback `0.50`; otherwise the `percentile` quantile of the last
`window_size` entries, with pandas `quantile` skipping the `NaN` (`none`)
entries.  The raw (unfiltered) series length is what is compared against the
window size. -/
def calculate_dynamic_floor [DecidableRel ((· ≤ ·) : α → α → Prop)]
    (rollingVol : List (Option α)) (annualDays : ℕ) (years percentile : ℚ) :
    Option α :=
  let windowSize := intTrunc (years * (annualDays : ℚ))
  if (rollingVol.length : ℤ) < windowSize then some (1 / 2)
  else quantile ((pyTail rollingVol windowSize).filterMap id) percentile

/-- Embedding of `RiskEngine.compute_safe_prices` (src/risk_engine.py:58-76).  Undefined
volatility maps every configured threshold key `name ++ " Price"` to an
undefined price; otherwise `crash = vol * mult`, capped at `max_cap`, and the
price is `cycle_high * (1 - crash)`. -/
def compute_safe_prices [DecidableRel ((· < ·) : α → α → Prop)]
    (multipliers : List (String × α)) (maxCap : α) (vol : Option α)
    (cycleHigh : α) : List (String × Option α) :=
  match vol with
  | none => multipliers.map (fun nm => (nm.1 ++ " Price", none))
  | some v =>
      multipliers.map (fun nm =>
        (nm.1 ++ " Price",
         some (cycleHigh * (1 - (if maxCap < v * nm.2 then maxCap else v * nm.2)))))

/-- Survival-check verdict (main.py:112-118).  A "safe" verdict carries the
reported margin. -/
inductive Verdict (α : Type*) where
  | insufficientHistory : Verdict α
  | liquidated : Verdict α
  | safe (margin : α) : Verdict α
deriving DecidableEq

/-- The survival check of main.py:110-118: undefined (absent or `NaN`)
historical Half-Kelly price gives "insufficient history"; `current ≤ hk`
gives "liquidated"; otherwise "safe" with margin `(current - hk) / current`. -/
def survivalCheck [DecidableRel ((· ≤ ·) : α → α → Prop)]
    (hkPrice : Option α) (currentPrice : α) : Verdict α :=
  match hkPrice with
  | none => Verdict.insufficientHistory
  | some p =>
      if currentPrice ≤ p then Verdict.liquidated
      else Verdict.safe ((currentPrice - p) / currentPrice)

/-- Python `max(raw_vol, floor)` from main.py:62 (returns `floor` exactly when
`floor > raw_vol`). -/
def effectiveVol [DecidableRel ((· < ·) : α → α → Prop)] (rawVol floor : α) :
    α :=
  if rawVol < floor then floor else rawVol

/-- The flag `is_floored = effective_vol > raw_vol` from main.py:63. -/
def floorActive [DecidableRel ((· < ·) : α → α → Prop)] (rawVol floor : α) :
    Bool :=
  decide (rawVol < effectiveVol rawVol floor)

/-- Pandas `Series.asof(d)` on a date-indexed series: the last non-`NaN`
value whose date is at or before `d` (`none` when there is none). -/
def asofLookup (series : List (ℕ × Option α)) (d : ℕ) : Option α :=
  ((series.filter (fun e => decide (e.1 ≤ d))).filterMap (fun e => e.2)).getLast?

/-- The volatility-at-high-date lookup of main.py:90-93: `vol_series.loc[d]`
when the date is present in the index (its value, even if `NaN`), otherwise
the `vol_series.asof(d)` fallback. -/
def athVolLookup (series : List (ℕ × Option α)) (d : ℕ) : Option α :=
  match series.find? (fun e => decide (e.1 = d)) with
  | some e => e.2
  | none => asofLookup series d

end Engine

/-- The day-over-day logarithmic return `np.log(prices[t] / prices[t-1])`
(src/risk_engine.py:38).  It is a (finite) real number exactly when both
prices exist and are positive; the `shift(1)` makes the entry at index `0`
undefined, and non-positive or missing prices propagate as undefined. -/
noncomputable def logRet (prices : List ℚ) (t : ℕ) : Option ℝ :=
  if 1 ≤ t ∧ t < prices.length ∧ 0 < prices.getD (t - 1) 0 ∧ 0 < prices.getD t 0 then
    some (Real.log ((prices.getD t 0 : ℝ) / (prices.getD (t - 1) 0 : ℝ)))
  else none

/-- Sample standard deviation with the pandas default `ddof = 1`. -/
noncomputable def sampleStd (vals : List ℝ) : ℝ :=
  let mean := vals.sum / (vals.length : ℝ)
  Real.sqrt ((vals.map (fun x => (x - mean) ^ 2)).sum / ((vals.length : ℝ) - 1))

/-- Index positions covered by a trailing rolling window of size `w` ending at
position `t`, inside a series of length `n`: those `i` with `i ≤ t < i + w`. -/
def windowIdxs (n w t : ℕ) : List ℕ :=
  (List.range n).filter (fun i => decide (i ≤ t) && decide (t < i + w))

/-- One entry of `log_ret.rolling(window=window, min_periods=5).std()
* np.sqrt(annual_days)` (src/risk_engine.py:41): defined exactly when at
least 5 returns in the trailing window are defined. -/
noncomputable def volEntry (prices : List ℚ) (annualDays window t : ℕ) :
    Option ℝ :=
  let vals := (windowIdxs prices.length window t).filterMap (logRet prices)
  if 5 ≤ vals.length then some (sampleStd vals * Real.sqrt (annualDays : ℝ))
  else none

/-- Embedding of `RiskEngine.calculate_volatility` (src/risk_engine.py:30-42): the
annualized rolling volatility series, aligned one-to-one with the price
series (`window` is the configured `volatility_window`, `min_periods` is the
hardcoded 5). -/
noncomputable def calculate_volatility (prices : List ℚ) (annualDays window : ℕ) :
    List (Option ℝ) :=
  (List.range prices.length).map (volEntry prices annualDays window)

/-- Number of valid (defined) log returns at indices up to `t` — the count of
returns "accumulated up to `t`" in the estimator's series. -/
noncomputable def validRetCount (prices : List ℚ) (t : ℕ) : ℕ :=
  (List.range prices.length).countP
    (fun i => decide (i ≤ t) && (logRet prices i).isSome)

/-- The recognized settings of the run (config values, pre-validated; defaults
as in the source's `settings.get` calls). -/
structure Settings where
  lookback_days : ℕ
  drift_lookback_days : ℕ
  volatility_window : ℕ
  crypto_trading_days : ℕ
  stock_trading_days : ℕ
  max_crash_cap : ℚ
  floor_lookback_years : ℚ
  floor_percentile : ℚ

/-- Embedding of `RiskEngine.get_annual_days` (src/risk_engine.py:24-28): hyphenated
tickers are crypto (365 by default), the rest stocks (252 by default). -/
def get_annual_days (s : Settings) (ticker : String) : ℕ :=
  if ticker.contains '-' then s.crypto_trading_days else s.stock_trading_days

/-- Pandas `Series.idxmax` together with `Series.max` on a date-indexed
series: the first entry attaining the maximal value. -/
def idxmaxEntry (l : List (ℕ × ℚ)) : ℕ × ℚ :=
  match l with
  | [] => (0, 0)
  | h :: t => t.foldl (fun best e => if best.2 < e.2 then e else best) h

/-- One row of the "Current Risk" table (main.py:69-82). -/
structure CurrRow where
  ticker : String
  price : ℚ
  cycleHigh : ℚ
  drawdown : ℚ
  rawVol : ℝ
  dynamicFloor : Option ℝ
  isFloored : Bool
  safePrices : List (String × Option ℝ)

/-- One row of the "Leverage Drift" table (main.py:98-120). -/
structure DriftRow where
  ticker : String
  athDate : ℕ
  athPrice : ℚ
  athVol : Option ℝ
  currentPrice : ℚ
  histLimits : List (String × Option ℝ)
  survival : Verdict ℝ

/-- The per-asset body of the orchestrator loop (main.py:47-120), for an asset
whose price history was fetched successfully.  Returns `none` exactly when the
last volatility entry is undefined (the "insufficient data" skip of
main.py:56-58); otherwise the pair of rows appended to the two tables.
The multipliers are the configured `risk_multipliers`; `cycle_high` assumes a
positive `lookback_days` and non-empty prices (as the source does when it
calls `float` on the tail maximum). -/
noncomputable def processAsset (s : Settings) (multipliers : List (String × ℚ))
    (aDays : ℕ) (ticker : String) (prices : List (ℕ × ℚ)) :
    Option (CurrRow × DriftRow) :=
  let vols := calculate_volatility (prices.map (fun e => e.2)) aDays s.volatility_window
  match vols.getLast?.getD none with
  | none => none
  | some rawVol =>
      let multsR : List (String × ℝ) := multipliers.map (fun nm => (nm.1, (nm.2 : ℝ)))
      let currentPrice : ℚ := ((prices.map (fun e => e.2)).getLast?).getD 0
      let floorOpt := calculate_dynamic_floor vols aDays s.floor_lookback_years s.floor_percentile
      let eff : ℝ := match floorOpt with
        | none => rawVol
        | some f => effectiveVol rawVol f
      let isFl : Bool := match floorOpt with
        | none => false
        | some f => floorActive rawVol f
      let cycleHigh : ℚ := (((pyTail prices (s.lookback_days : ℤ)).map (fun e => e.2)).max?).getD 0
      let drawdown : ℚ := (cycleHigh - currentPrice) / cycleHigh
      let rowCurr : CurrRow :=
        { ticker := ticker, price := currentPrice, cycleHigh := cycleHigh,
          drawdown := -drawdown, rawVol := rawVol, dynamicFloor := floorOpt,
          isFloored := isFl,
          safePrices := compute_safe_prices multsR (s.max_crash_cap : ℝ) (some eff) (cycleHigh : ℝ) }
      let driftWindow := pyTail prices (s.drift_lookback_days : ℤ)
      let ath := idxmaxEntry driftWindow
      let volSeries : List (ℕ × Option ℝ) := (prices.map (fun e => e.1)).zip vols
      let athVol : Option ℝ := athVolLookup volSeries ath.1
      let histLimits := compute_safe_prices multsR (s.max_crash_cap : ℝ) athVol (ath.2 : ℝ)
      let hk : Option ℝ := ((histLimits.find? (fun e => decide (e.1 = "Half Kelly Price"))).bind (fun e => e.2))
      let rowDrift : DriftRow :=
        { ticker := ticker, athDate := ath.1, athPrice := ath.2, athVol := athVol,
          currentPrice := currentPrice, histLimits := histLimits,
          survival := survivalCheck hk (currentPrice : ℝ) }
      some (rowCurr, rowDrift)

/-- The asset loop of `main` (main.py:40-120): each asset either has no data
(`none`, the loader returned nothing — skipped), or its history is processed;
assets whose `processAsset` is `none` contribute to neither table.  Returns
the two tables in input order. -/
noncomputable def runAssets (s : Settings) (multipliers : List (String × ℚ))
    (inputs : List (String × Option (List (ℕ × ℚ)))) :
    List CurrRow × List DriftRow :=
  inputs.foldr
    (fun inp acc =>
      match inp.2 with
      | none => acc
      | some prices =>
          match processAsset s multipliers (get_annual_days s inp.1) inp.1 prices with
          | none => acc
          | some rows => (rows.1 :: acc.1, rows.2 :: acc.2))
    ([], [])

/-! Helper lemmas. -/

theorem length_filterMap_eq_countP {β γ : Type*} (f : β → Option γ) :
    ∀ l : List β, (l.filterMap f).length = l.countP (fun a => (f a).isSome) := by
  intro l
  induction l with
  | nil => rfl
  | cons a l ih =>
      rw [List.filterMap_cons, List.countP_cons]
      cases hfa : f a <;> simp [hfa, ih]

theorem mem_of_getLast?_eq_some {β : Type*} {l : List β} {a : β}
    (h : l.getLast? = some a) : a ∈ l := by
  induction l with
  | nil => simp at h
  | cons b l ih =>
      cases l with
      | nil => simp_all
      | cons c l =>
          rw [List.getLast?_cons_cons] at h
          exact List.mem_cons_of_mem _ (ih h)

theorem string_data_ext {a b : String} (h : a.data = b.data) : a = b := by
  cases a; cases b; exact congrArg String.mk h

theorem key_append_cancel {a b : String} (h : a ++ " Price" = b ++ " Price") :
    a = b :=
  string_data_ext (List.append_cancel_right
    (by rw [← String.data_append, ← String.data_append, h]))

theorem ite_cap_eq_min {α : Type*} [LinearOrder α] (x cap : α) :
    (if cap < x then cap else x) = min x cap := by
  rcases le_or_lt x cap with h | h
  · rw [min_eq_left h, if_neg (not_lt.mpr h)]
  · rw [min_eq_right h.le, if_pos h]

theorem compute_safe_prices_keys {m : List (String × ℚ)} {cap high : ℚ}
    {vol : Option ℚ} {e : String × Option ℚ}
    (he : e ∈ compute_safe_prices m cap vol high) :
    ∃ nm ∈ m, e.1 = nm.1 ++ " Price" := by
  cases vol <;> simp only [compute_safe_prices, List.mem_map] at he <;>
    obtain ⟨nm, hnm, rfl⟩ := he <;> exact ⟨nm, hnm, rfl⟩

/-! Claim theorems. -/

/-- C2: for every multiplier set, the Safe-Price Projector called with an
undefined volatility returns an output containing every configured threshold
key with an undefined value — never zero and never an exception (the function
is total and produces exactly the keyed undefined entries). -/
theorem safe_prices_undefined_vol (m : List (String × ℚ)) (cap high : ℚ) :
    compute_safe_prices m cap none high
      = m.map (fun nm => (nm.1 ++ " Price", (none : Option ℚ))) := rfl

/-- C3: for every defined volatility, reference price and (name, multiplier)
pair, the projector computes `crashFraction = min (vol * mult) maxCap` and the
price `referencePrice * (1 - crashFraction)`; concretely `vol = 10`,
`mult = 3/2`, `maxCap = 17/20`, `reference = 100` gives exactly 15. -/
theorem safe_prices_formula (m : List (String × ℚ)) (cap v high : ℚ) :
    compute_safe_prices m cap (some v) high
      = m.map (fun nm => (nm.1 ++ " Price", some (high * (1 - min (v * nm.2) cap)))) ∧
    compute_safe_prices [("Half Kelly", (3 : ℚ) / 2)] (17 / 20) (some 10) 100
      = [("Half Kelly Price", some 15)] := by
  constructor
  · simp only [compute_safe_prices]
    apply List.map_congr_left
    intro nm _
    rw [ite_cap_eq_min]
  · norm_num [compute_safe_prices]
    rfl

/-- C4: with a defined non-negative volatility, positive reference price,
positive multipliers and a cap in (0,1), every projected price is defined,
at least `reference * (1 - maxCap)` (hence strictly positive) and at most the
reference price. -/
theorem safe_prices_bounded (m : List (String × ℚ)) (cap v high : ℚ)
    (hv : 0 ≤ v) (hhigh : 0 < high) (hcap0 : 0 < cap) (hcap1 : cap < 1)
    (hmult : ∀ nm ∈ m, 0 < nm.2) :
    ∀ e ∈ compute_safe_prices m cap (some v) high,
      ∃ pr, e.2 = some pr ∧ high * (1 - cap) ≤ pr ∧ 0 < pr ∧ pr ≤ high := by
  intro e he
  simp only [compute_safe_prices, List.mem_map] at he
  obtain ⟨nm, hnm, rfl⟩ := he
  have hm := hmult nm hnm
  set c := if cap < v * nm.2 then cap else v * nm.2 with hc
  have h0 : 0 ≤ c := by
    rw [hc]; split_ifs with h
    · exact hcap0.le
    · exact mul_nonneg hv hm.le
  have h1 : c ≤ cap := by
    rw [hc]; split_ifs with h
    · exact le_refl cap
    · exact not_lt.mp h
  refine ⟨_, rfl, ?_, ?_, ?_⟩
  · exact mul_le_mul_of_nonneg_left (by linarith) hhigh.le
  · exact mul_pos hhigh (by linarith)
  · nlinarith

/-- C4 witness: a concrete instance of `safe_prices_bounded`. -/
theorem safe_prices_bounded_witness :
    ((0 : ℚ) ≤ 1 / 10 ∧ (0 : ℚ) < 100 ∧ (0 : ℚ) < 17 / 20 ∧ (17 : ℚ) / 20 < 1 ∧
      (∀ nm ∈ [("Half Kelly", (3 : ℚ) / 2)], 0 < nm.2)) ∧
    ∀ e ∈ compute_safe_prices [("Half Kelly", (3 : ℚ) / 2)] (17 / 20) (some (1 / 10)) 100,
      ∃ pr, e.2 = some pr ∧ 100 * (1 - 17 / 20) ≤ pr ∧ 0 < pr ∧ pr ≤ 100 :=
  ⟨⟨by norm_num, by norm_num, by norm_num, by norm_num, by norm_num⟩,
    safe_prices_bounded _ _ _ _ (by norm_num) (by norm_num) (by norm_num)
      (by norm_num) (by norm_num)⟩

/-- C5: the orchestrator's effective volatility is `max rawVol floor`, so it
is never below the raw volatility, and the floor-active flag holds exactly
when the floor strictly exceeds the raw volatility. -/
theorem effective_vol_floor (r f : ℚ) :
    effectiveVol r f = max r f ∧ r ≤ effectiveVol r f ∧
      (floorActive r f = true ↔ r < f) := by
  refine ⟨?_, ?_, ?_⟩
  · rw [effectiveVol, max_def]
    rcases lt_trichotomy r f with h | h | h
    · rw [if_pos h, if_pos h.le]
    · subst h; simp
    · rw [if_neg (not_lt.mpr h.le), if_neg (not_le.mpr h)]
  · unfold effectiveVol
    split_ifs with h
    · exact h.le
    · exact le_refl r
  · simp only [floorActive, effectiveVol, decide_eq_true_eq]
    split_ifs with h
    · exact iff_of_true h h
    · exact iff_of_false (lt_irrefl r) h

/-- C6: with a defined positive historical Half-Kelly safe price, current
price equal to it gives the "liquidated" verdict (comparison is ≤), current
price strictly above gives "safe" with margin `(current - hk) / current`,
which is strictly positive; undefined historical price gives "insufficient
history". -/
theorem survival_verdict (p current : ℚ) (hp : 0 < p) :
    survivalCheck (none : Option ℚ) current = Verdict.insufficientHistory ∧
    survivalCheck (some p) p = Verdict.liquidated ∧
    (p < current →
      survivalCheck (some p) current = Verdict.safe ((current - p) / current) ∧
      0 < (current - p) / current) := by
  refine ⟨rfl, ?_, ?_⟩
  · simp [survivalCheck]
  · intro h
    refine ⟨?_, div_pos (sub_pos.mpr h) (hp.trans h)⟩
    simp [survivalCheck, not_le.mpr h]

/-- C6 witness: the boundary at a historical safe price of 50. -/
theorem survival_verdict_witness :
    (0 : ℚ) < 50 ∧
    survivalCheck (some (50 : ℚ)) 50 = Verdict.liquidated ∧
    survivalCheck (some (50 : ℚ)) 60 = Verdict.safe ((60 - 50) / 60) ∧
    (0 : ℚ) < (60 - 50) / 60 :=
  ⟨by norm_num, (survival_verdict 50 60 (by norm_num)).2.1,
    ((survival_verdict 50 60 (by norm_num)).2.2 (by norm_num)).1,
    ((survival_verdict 50 60 (by norm_num)).2.2 (by norm_num)).2⟩

/-- C1 counterexample: with `lookbackYears = 1/100` and
`annualizationDays = 365` the claim's window size `round(1/100 * 365) = 4`
exceeds the series length 3, so the claim predicts the fallback `0.50`; the
code truncates (`int(3.65) = 3`), takes the branch computing the quantile of
`[1, 1, 1]`, and returns 1 instead. -/
theorem dynamic_floor_round_counterexample :
    (([some 1, some 1, some 1] : List (Option ℚ)).length : ℤ) <
        roundNearest ((1 / 100 : ℚ) * ((365 : ℕ) : ℚ)) ∧
    calculate_dynamic_floor ([some 1, some 1, some 1] : List (Option ℚ)) 365
        (1 / 100) (1 / 4) = some 1 ∧
    some (1 : ℚ) ≠ some (1 / 2 : ℚ) := by
  refine ⟨?_, ?_, by norm_num⟩
  · rw [roundNearest]
    rw [show ((1 / 100 : ℚ) * ((365 : ℕ) : ℚ) + 1 / 2) = 83 / 20 by push_cast; norm_num]
    rw [show ⌊(83 / 20 : ℚ)⌋ = 4 from by rw [Int.floor_eq_iff] <;> norm_num]
    norm_num
  · have hw : intTrunc ((1 / 100 : ℚ) * ((365 : ℕ) : ℚ)) = 3 := by
      rw [intTrunc, if_pos (by norm_num)]
      rw [show ((1 / 100 : ℚ) * ((365 : ℕ) : ℚ)) = 73 / 20 by push_cast; norm_num]
      rw [Int.floor_eq_iff] <;> norm_num
    simp only [calculate_dynamic_floor, hw]
    norm_num [pyTail, quantile, List.insertionSort, List.orderedInsert]
    exact fun h => nomatch h

/-- C1 (amended): the Dynamic Floor Calculator returns the fallback `0.50`
exactly when the series is shorter than the TRUNCATED window size
`int(lookbackYears * annualizationDays)` (rather than the rounded one), and
otherwise the percentile quantile of the most recent window-size entries —
the raw tail length (undefined entries included) is counted against the
threshold, and undefined entries are dropped before the quantile. -/
theorem dynamic_floor_trunc_window (vol : List (Option ℚ)) (annualDays : ℕ)
    (years percentile : ℚ) (hy : 0 ≤ years) :
    ((vol.length : ℤ) < intTrunc (years * (annualDays : ℚ)) →
      calculate_dynamic_floor vol annualDays years percentile = some (1 / 2)) ∧
    (intTrunc (years * (annualDays : ℚ)) ≤ (vol.length : ℤ) →
      calculate_dynamic_floor vol annualDays years percentile =
        quantile
          ((vol.drop (vol.length - (intTrunc (years * (annualDays : ℚ))).toNat)).filterMap id)
          percentile) := by
  constructor
  · intro h
    simp only [calculate_dynamic_floor, if_pos h]
  · intro h
    have hnn : (0 : ℚ) ≤ years * (annualDays : ℚ) :=
      mul_nonneg hy (by positivity)
    have h0 : 0 ≤ intTrunc (years * (annualDays : ℚ)) := by
      rw [intTrunc, if_pos hnn]
      exact Int.floor_nonneg.mpr hnn
    simp only [calculate_dynamic_floor, if_neg (not_lt.mpr h), pyTail, if_pos h0]

/-- C1 witness: with the default configuration (5 years, 365 trading days)
a 3-entry series is below the truncated window of 1825, so the floor is the
fallback 0.50. -/
theorem dynamic_floor_trunc_witness :
    (0 : ℚ) ≤ 5 ∧
    (([some 1, some 1, some 1] : List (Option ℚ)).length : ℤ) <
      intTrunc ((5 : ℚ) * ((365 : ℕ) : ℚ)) ∧
    calculate_dynamic_floor ([some 1, some 1, some 1] : List (Option ℚ)) 365 5
      (1 / 4) = some (1 / 2) := by
  have hy : (0 : ℚ) ≤ 5 := by norm_num
  have hw : intTrunc ((5 : ℚ) * ((365 : ℕ) : ℚ)) = 1825 := by
    rw [intTrunc, if_pos (by positivity)]
    rw [show ((5 : ℚ) * ((365 : ℕ) : ℚ)) = 1825 by push_cast; norm_num]
    rw [Int.floor_eq_iff] <;> norm_num
  have hlt : (([some 1, some 1, some 1] : List (Option ℚ)).length : ℤ) <
      intTrunc ((5 : ℚ) * ((365 : ℕ) : ℚ)) := by
    rw [hw]
    norm_num
  exact ⟨hy, hlt, (dynamic_floor_trunc_window _ 365 _ _ hy).1 hlt⟩

/-- With strictly increasing dates, an exact date match is found by `find?`. -/
theorem find?_date_unique {β : Type*} {l : List (ℕ × β)} {d : ℕ} {e : ℕ × β}
    (hpw : l.Pairwise (fun a b => a.1 < b.1)) (he : e ∈ l) (hd : e.1 = d) :
    l.find? (fun x => decide (x.1 = d)) = some e := by
  induction l with
  | nil => simp at he
  | cons a l ih =>
      rw [List.pairwise_cons] at hpw
      rcases List.mem_cons.mp he with rfl | hmem
      · exact List.find?_cons_of_pos _ (by simp [hd])
      · have hne : a.1 ≠ d := by
          have := hpw.1 e hmem
          omega
        rw [List.find?_cons_of_neg _ (by simp [hne])]
        exact ih hpw.2 hmem

/-- C7: the volatility-at-high lookup uses the exact entry when the date is
present (even an undefined one), otherwise the last defined value at or
before the date; any defined result comes from a date no later than the
lookup date; and when every entry at or before the date is undefined the
lookup is undefined, all historical safe prices are undefined, and the
survival verdict is "insufficient history" (no crash: everything is total). -/
theorem ath_vol_lookup_spec (series : List (ℕ × Option ℚ)) (d : ℕ)
    (m : List (String × ℚ)) (cap price current : ℚ)
    (hasc : series.Pairwise (fun a b => a.1 < b.1)) :
    (∀ e ∈ series, e.1 = d → athVolLookup series d = e.2) ∧
    ((∀ e ∈ series, e.1 ≠ d) →
      athVolLookup series d =
        ((series.filter (fun e => decide (e.1 ≤ d))).filterMap (fun e => e.2)).getLast?) ∧
    (∀ v, athVolLookup series d = some v → ∃ e ∈ series, e.1 ≤ d ∧ e.2 = some v) ∧
    ((∀ e ∈ series, e.1 ≤ d → e.2 = none) →
      athVolLookup series d = none ∧
      (∀ e ∈ compute_safe_prices m cap (athVolLookup series d) price, e.2 = none) ∧
      survivalCheck
        (((compute_safe_prices m cap (athVolLookup series d) price).find?
            (fun e => decide (e.1 = "Half Kelly Price"))).bind (fun e => e.2))
        current = Verdict.insufficientHistory) := by
  refine ⟨?_, ?_, ?_, ?_⟩
  · intro e he hd
    rw [athVolLookup, find?_date_unique hasc he hd]
  · intro hne
    have hfn : series.find? (fun x => decide (x.1 = d)) = none :=
      List.find?_eq_none.mpr (fun e he => by simp [hne e he])
    rw [athVolLookup, hfn]
    rfl
  · intro v hv
    cases hfind : series.find? (fun x => decide (x.1 = d)) with
    | some e =>
        have hmem := List.mem_of_find?_eq_some hfind
        have hdd : e.1 = d := by simpa using List.find?_some hfind
        rw [athVolLookup, hfind] at hv
        exact ⟨e, hmem, hdd.le, hv⟩
    | none =>
        rw [athVolLookup, hfind] at hv
        have hvmem := mem_of_getLast?_eq_some hv
        obtain ⟨e, hef, hev⟩ := List.mem_filterMap.mp hvmem
        have hmf := List.mem_filter.mp hef
        exact ⟨e, hmf.1, by simpa using hmf.2, hev⟩
  · intro hall
    have h1 : athVolLookup series d = none := by
      cases hfind : series.find? (fun x => decide (x.1 = d)) with
      | some e =>
          have hmem := List.mem_of_find?_eq_some hfind
          have hdd : e.1 = d := by simpa using List.find?_some hfind
          rw [athVolLookup, hfind]
          exact hall e hmem hdd.le
      | none =>
          rw [athVolLookup, hfind, asofLookup]
          have hfm : (series.filter (fun e => decide (e.1 ≤ d))).filterMap
              (fun e => e.2) = [] := by
            rw [List.filterMap_eq_nil_iff]
            intro e he
            have hmf := List.mem_filter.mp he
            exact hall e hmf.1 (by simpa using hmf.2)
          rw [hfm]
          rfl
    refine ⟨h1, ?_, ?_⟩
    · rw [h1]
      intro e he
      simp only [compute_safe_prices, List.mem_map] at he
      obtain ⟨nm, hnm, rfl⟩ := he
      rfl
    · rw [h1]
      cases hf : (compute_safe_prices m cap none price).find?
          (fun e => decide (e.1 = "Half Kelly Price")) with
      | none => rfl
      | some e =>
          have hmem := List.mem_of_find?_eq_some hf
          have he2 : e.2 = none := by
            simp only [compute_safe_prices, List.mem_map] at hmem
            obtain ⟨nm, hnm, rfl⟩ := hmem
            rfl
          simp [he2, survivalCheck]

/-- C7 witness: at date 2, no exact entry exists in
`[(1, some 2), (3, none)]`, so the as-of fallback applies. -/
theorem ath_vol_lookup_witness :
    (([(1, some (2 : ℚ)), (3, none)] : List (ℕ × Option ℚ)).Pairwise
        (fun a b => a.1 < b.1)) ∧
    (∀ e ∈ ([(1, some (2 : ℚ)), (3, none)] : List (ℕ × Option ℚ)), e.1 ≠ 2) ∧
    athVolLookup ([(1, some (2 : ℚ)), (3, none)] : List (ℕ × Option ℚ)) 2 =
      ((([(1, some (2 : ℚ)), (3, none)] : List (ℕ × Option ℚ)).filter
            (fun e => decide (e.1 ≤ 2))).filterMap (fun e => e.2)).getLast? := by
  have h1 : (([(1, some (2 : ℚ)), (3, none)] : List (ℕ × Option ℚ)).Pairwise
      (fun a b => a.1 < b.1)) := by
    norm_num [List.pairwise_cons]
  have h2 : ∀ e ∈ ([(1, some (2 : ℚ)), (3, none)] : List (ℕ × Option ℚ)),
      e.1 ≠ 2 := by
    intro e he
    rcases List.mem_cons.mp he with rfl | he
    · norm_num
    · rcases List.mem_cons.mp he with rfl | he
      · norm_num
      · simp at he
  exact ⟨h1, h2, (ath_vol_lookup_spec _ 2 [] 0 0 0 h1).2.1 h2⟩

/-- A defined log return requires a previous price, so its index is at least
1 and within the series. -/
theorem logRet_isSome_bounds {prices : List ℚ} {i : ℕ}
    (h : (logRet prices i).isSome = true) : 1 ≤ i ∧ i < prices.length := by
  rw [logRet] at h
  by_cases hc : 1 ≤ i ∧ i < prices.length ∧
      0 < prices.getD (i - 1) 0 ∧ 0 < prices.getD i 0
  · exact ⟨hc.1, hc.2.1⟩
  · rw [if_neg hc] at h
    simp at h

/-- The number of positive indices below `n`. -/
theorem countP_one_le_range :
    ∀ n : ℕ, (List.range n).countP (fun i => decide (1 ≤ i)) = n - 1 := by
  intro n
  induction n with
  | zero => rfl
  | succ n ih =>
      rw [List.range_succ, List.countP_append, ih]
      rcases Nat.eq_zero_or_pos n with rfl | hn
      · rfl
      · have h1 : List.countP (fun i => decide (1 ≤ i)) [n] = 1 := by
          simp [List.countP_cons, hn.ne']
        rw [h1]
        omega

/-- Entries of the volatility series at in-range positions. -/
theorem calculate_volatility_getD {prices : List ℚ} {aDays w t : ℕ}
    (ht : t < prices.length) :
    (calculate_volatility prices aDays w).getD t none = volEntry prices aDays w t := by
  rw [calculate_volatility, List.getD_eq_getElem?_getD, List.getElem?_map,
    List.getElem?_range ht]
  rfl

/-- C8: the Volatility Estimator yields an entirely undefined series — not an
error — whenever the series has fewer than `minSamples = 5` returns; and when
the series has fewer than `window` returns, any index with at least 5 valid
returns accumulated up to it gets a defined value.  (The concrete 10-point
case is the witness.) -/
theorem volatility_min_samples (prices : List ℚ) (aDays w t : ℕ) :
    (prices.length ≤ 5 → (calculate_volatility prices aDays w).getD t none = none) ∧
    (prices.length ≤ w → t < prices.length → 5 ≤ validRetCount prices t →
      ((calculate_volatility prices aDays w).getD t none).isSome = true) := by
  constructor
  · intro h5
    rcases lt_or_le t prices.length with ht | ht
    · rw [calculate_volatility_getD ht, volEntry]
      have hlen : ((windowIdxs prices.length w t).filterMap (logRet prices)).length < 5 := by
        rw [length_filterMap_eq_countP]
        have hb1 : (windowIdxs prices.length w t).countP
              (fun a => (logRet prices a).isSome)
            ≤ (List.range prices.length).countP (fun a => (logRet prices a).isSome) :=
          List.Sublist.countP_le _ (List.filter_sublist _)
        have hb2 : (List.range prices.length).countP (fun a => (logRet prices a).isSome)
            ≤ (List.range prices.length).countP (fun i => decide (1 ≤ i)) := by
          apply List.countP_mono_left
          intro i _ hsome
          simpa using (logRet_isSome_bounds hsome).1
        have hb3 := countP_one_le_range prices.length
        omega
      rw [if_neg (by omega)]
    · rw [calculate_volatility, List.getD_eq_getElem?_getD]
      have hnone : ((List.range prices.length).map (volEntry prices aDays w))[t]? = none := by
        apply List.getElem?_eq_none
        simpa using ht
      rw [hnone]
      rfl
  · intro hw ht hcount
    rw [calculate_volatility_getD ht, volEntry]
    have heq : windowIdxs prices.length w t
        = (List.range prices.length).filter (fun i => decide (i ≤ t)) := by
      rw [windowIdxs]
      apply List.filter_congr
      intro i hi
      have hi' : i < prices.length := List.mem_range.mp hi
      have hiw : t < i + w := by omega
      simp [hiw]
    have hlen : 5 ≤ ((windowIdxs prices.length w t).filterMap (logRet prices)).length := by
      rw [heq, length_filterMap_eq_countP, List.countP_filter]
      have halign : (List.range prices.length).countP
            (fun a => (logRet prices a).isSome && decide (a ≤ t))
          = validRetCount prices t := by
        rw [validRetCount]
        apply List.countP_congr
        intro a _
        rw [Bool.and_comm]
      omega
    rw [if_pos hlen]
    rfl

/-- C8 witness: the 10-point strictly increasing series of the repository's
own test, with `minSamples = 5` and `window = 30`, has a defined volatility at
the final index. -/
theorem volatility_min_samples_witness :
    (([100, 101, 102, 103, 104, 105, 106, 107, 108, 109] : List ℚ).length ≤ 30 ∧
      9 < ([100, 101, 102, 103, 104, 105, 106, 107, 108, 109] : List ℚ).length ∧
      5 ≤ validRetCount ([100, 101, 102, 103, 104, 105, 106, 107, 108, 109] : List ℚ) 9) ∧
    ((calculate_volatility ([100, 101, 102, 103, 104, 105, 106, 107, 108, 109] : List ℚ)
        365 30).getD 9 none).isSome = true := by
  have h1 : ([100, 101, 102, 103, 104, 105, 106, 107, 108, 109] : List ℚ).length ≤ 30 := by
    simp
  have h2 : 9 < ([100, 101, 102, 103, 104, 105, 106, 107, 108, 109] : List ℚ).length := by
    simp
  have h3 : 5 ≤ validRetCount ([100, 101, 102, 103, 104, 105, 106, 107, 108, 109] : List ℚ) 9 := by
    decide
  exact ⟨⟨h1, h2, h3⟩, (volatility_min_samples _ 365 30 9).2 h1 h2 h3⟩

/-- C9: when the last volatility entry of an asset is undefined, the
orchestrator emits no record for it in either output table — for any
annualization constant the per-asset step yields nothing, and the run over
any surrounding assets produces exactly the tables it would produce without
this asset (processing simply continues). -/
theorem skip_on_undefined_vol (s : Settings) (m : List (String × ℚ))
    (tk : String) (prices : List (ℕ × ℚ))
    (h : ∀ aD, ((calculate_volatility (prices.map (fun e => e.2)) aD
        s.volatility_window).getLast?).getD none = none) :
    (∀ aD, processAsset s m aD tk prices = none) ∧
    ∀ pre post, runAssets s m (pre ++ (tk, some prices) :: post)
      = runAssets s m (pre ++ post) := by
  have h1 : ∀ aD, processAsset s m aD tk prices = none := by
    intro aD
    simp only [processAsset]
    rw [h aD]
  refine ⟨h1, ?_⟩
  intro pre post
  induction pre with
  | nil =>
      simp only [List.nil_append, runAssets, List.foldr_cons, h1]
  | cons x pre ih =>
      simp only [List.cons_append, runAssets, List.foldr_cons]
      exact congrArg
        (fun acc : List CurrRow × List DriftRow =>
          match x.2 with
          | none => acc
          | some prices' =>
              match processAsset s m (get_annual_days s x.1) x.1 prices' with
              | none => acc
              | some rows => (rows.1 :: acc.1, rows.2 :: acc.2))
        ih

/-- C9 witness: a single-point price history has an undefined last volatility,
and the asset is skipped. -/
theorem skip_on_undefined_vol_witness :
    (∀ aD, ((calculate_volatility (([(0, (1 : ℚ))] : List (ℕ × ℚ)).map (fun e => e.2)) aD
        (30 : ℕ)).getLast?).getD none = none) ∧
    processAsset ⟨365, 1825, 30, 365, 252, 17 / 20, 5, 1 / 4⟩
      [("Half Kelly", (3 : ℚ) / 2)] 365 "BTC-USD" ([(0, (1 : ℚ))] : List (ℕ × ℚ)) = none := by
  have h : ∀ aD, ((calculate_volatility (([(0, (1 : ℚ))] : List (ℕ × ℚ)).map (fun e => e.2)) aD
      (30 : ℕ)).getLast?).getD none = none := fun aD => rfl
  exact ⟨h, (skip_on_undefined_vol ⟨365, 1825, 30, 365, 252, 17 / 20, 5, 1 / 4⟩
    [("Half Kelly", (3 : ℚ) / 2)] "BTC-USD" [(0, (1 : ℚ))] h).1 365⟩

/-- C10: the survival check reads the literal key "Half Kelly Price"; when no
configured multiplier is named "Half Kelly", the lookup finds nothing and the
verdict is "insufficient history" for every asset, however much history is
available. -/
theorem missing_half_kelly_insufficient (m : List (String × ℚ))
    (cap high current : ℚ) (vol : Option ℚ)
    (h : ∀ nm ∈ m, nm.1 ≠ "Half Kelly") :
    survivalCheck
      (((compute_safe_prices m cap vol high).find?
          (fun e => decide (e.1 = "Half Kelly Price"))).bind (fun e => e.2))
      current = Verdict.insufficientHistory := by
  have hfind : (compute_safe_prices m cap vol high).find?
      (fun e => decide (e.1 = "Half Kelly Price")) = none := by
    rw [List.find?_eq_none]
    intro e he
    simp only [decide_eq_true_eq]
    intro heq
    obtain ⟨nm, hnm, hkey⟩ := compute_safe_prices_keys he
    apply h nm hnm
    apply key_append_cancel
    rw [← hkey, heq]
    rfl
  rw [hfind]
  rfl

/-- C10 witness: a multiplier set with no "Half Kelly" entry always yields
the "insufficient history" verdict. -/
theorem missing_half_kelly_witness :
    (∀ nm ∈ [("Kelly", (2 : ℚ))], nm.1 ≠ "Half Kelly") ∧
    survivalCheck
      (((compute_safe_prices [("Kelly", (2 : ℚ))] (17 / 20) (some (1 / 10)) 100).find?
          (fun e => decide (e.1 = "Half Kelly Price"))).bind (fun e => e.2))
      50 = Verdict.insufficientHistory :=
  ⟨by decide, missing_half_kelly_insufficient _ _ _ _ _ (by decide)⟩

end RiskSuite
